import Mathlib

/-!
Verification development for the graph-based workflow examples of the
repository.  The generic graph-execution engine is supplied by an external
orchestration library and is not part of the repository's sources, so it is
modelled here from the specification (every such definition is marked
"Modelled from the spec:").  The concrete workflows (their state schemas,
step functions, routers and graph wirings) are translated directly from the
TypeScript sources.  Calls to the external LLM service are modelled as
oracle parameters, since their results are opaque external inputs.
-/

/-- A JSON-like runtime value: JS numbers are modelled as rationals,
strings as `String`, arrays as lists of values. -/
inductive JValue where
  | num (q : ℚ)
  | str (s : String)
  | arr (l : List JValue)

/-- A partial-state update returned by a step: a list of field/value pairs. -/
abbrev Update := List (String × JValue)

/-- The shared workflow state: an association list from field names to values. -/
abbrev WState := List (String × JValue)

/-- Association-list lookup by string key (first match wins). -/
def lookupA {α : Type} : List (String × α) → String → Option α
  | [], _ => none
  | p :: t, k => if p.1 = k then some p.2 else lookupA t k

/-- Replace the value stored under key `k` (no-op when `k` is absent); the
set of keys of the state never changes. -/
def setA : WState → String → JValue → WState
  | [], _, _ => []
  | p :: t, k, v => if p.1 = k then (k, v) :: setA t k v else p :: setA t k v

/-- The list of field names present in a state. -/
def keysOf (s : WState) : List String := s.map (fun p => p.1)

/-- Modelled from the spec: per-field merge strategy (`overwrite` is the
default; `accumulate` concatenates sequences, as declared by a reducer). -/
inductive MergeStrat where
  | overwrite
  | accumulate
deriving DecidableEq

/-- One field of a state schema: its name, merge strategy and default value. -/
structure FieldSpec where
  name : String
  strat : MergeStrat
  dflt : JValue

/-- Modelled from the spec: a StateSchema is a fixed list of field specs. -/
abbrev Schema := List FieldSpec

def findSpec (schema : Schema) (k : String) : Option FieldSpec :=
  schema.find? (fun f => f.name == k)

/-- View a value as a sequence (the accumulate reducer
`[...(current || []), ...(update || [])]` works on arrays; a missing value
counts as the empty array). -/
def asArr : Option JValue → List JValue
  | some (.arr l) => l
  | _ => []

/-- Read a numeric field (symbolic fields always hold their schema default
once the state is materialized). -/
def getNum (s : WState) (k : String) : ℚ :=
  match lookupA s k with
  | some (.num q) => q
  | _ => 0

/-- Read a string field. -/
def getStr (s : WState) (k : String) : String :=
  match lookupA s k with
  | some (.str t) => t
  | _ => ""

/-- Modelled from the spec: apply one field of a step's partial-state result
to the state using the field's merge strategy; a key absent from the schema
never introduces a new field. -/
def applyPair (schema : Schema) (s : WState) (kv : String × JValue) : WState :=
  match findSpec schema kv.1 with
  | none => s
  | some fs =>
    match fs.strat with
    | .overwrite => setA s kv.1 kv.2
    | .accumulate => setA s kv.1 (.arr (asArr (lookupA s kv.1) ++ asArr (some kv.2)))

/-- Modelled from the spec: merge a whole partial-state result field by field. -/
def applyUpdate (schema : Schema) (s : WState) (u : Update) : WState :=
  u.foldl (applyPair schema) s

/-- Modelled from the spec: run-time and engine errors. `stepError` wraps a
failure signalled by a step function, preserving the original message. -/
inductive EngErr where
  | stepError (msg : String)
  | routingError
  | unknownNode (n : String)
  | outOfFuel
deriving DecidableEq

/-- A named node backed by a step function `State → Partial<State>` that may
signal an error. -/
structure Node where
  name : String
  step : WState → Except String Update

/-- A conditional edge set: source node, router, and label map (an empty map
means labels are used directly as destination node names). -/
structure Branch where
  src : String
  router : WState → String
  labelMap : List (String × String)

/-- Modelled from the spec: a compiled graph declaration. -/
structure Graph where
  schema : Schema
  nodes : List Node
  edges : List (String × String)
  branches : List Branch

def STARTname : String := "__start__"
def ENDname : String := "__end__"

def findNode (g : Graph) (n : String) : Option Node :=
  g.nodes.find? (fun nd => nd.name == n)

def findBranch (g : Graph) (n : String) : Option Branch :=
  g.branches.find? (fun b => b.src == n)

def isNode (g : Graph) (n : String) : Bool :=
  g.nodes.any (fun nd => nd.name == n)

/-- Modelled from the spec: resolve a router's label through the label map
(or directly when no map was supplied) to a registered node or END;
`none` signals a routing failure. -/
def resolveDest (g : Graph) (br : Branch) (s : WState) : Option String :=
  let lbl := br.router s
  let dest := if br.labelMap.isEmpty then some lbl else lookupA br.labelMap lbl
  match dest with
  | none => none
  | some d => if d = ENDname ∨ isNode g d then some d else none

/-- Modelled from the spec: outgoing transitions of a node.  A node with a
conditional edge set is routed by its router (invoked once, synchronously);
otherwise all its unconditional edges are taken (fan-out). -/
def succsOf (g : Graph) (n : String) (s : WState) : Except EngErr (List String) :=
  match findBranch g n with
  | some br =>
    match resolveDest g br s with
    | some d => .ok [d]
    | none => .error .routingError
  | none => .ok ((g.edges.filter (fun e => e.1 == n)).map (fun e => e.2))

def collectSuccs (g : Graph) (s : WState) : List String → Except EngErr (List String)
  | [] => .ok []
  | n :: rest =>
    match succsOf g n s with
    | .error e => .error e
    | .ok l =>
      match collectSuccs g s rest with
      | .error e => .error e
      | .ok l' => .ok (l ++ l')

/-- Drop the END sentinel and duplicate entries from a frontier. -/
def cleanupFrontier (l : List String) : List String :=
  (l.filter (fun x => x ≠ ENDname)).dedup

/-- Modelled from the spec: the frontier of nodes to execute next, i.e. the
merged successors of all nodes of the current frontier. -/
def nextFrontier (g : Graph) (fr : List String) (s : WState) : Except EngErr (List String) :=
  match collectSuccs g s fr with
  | .error e => .error e
  | .ok l => .ok (cleanupFrontier l)

/-- Modelled from the spec: execute every step of the current frontier.  All
branches of a fan-out receive the same pre-superstep state `s0` (a read-only
view of the pre-branch state) and their outputs are merged in completion
order (the frontier order).  Returns the merged state, the list of nodes
whose step function was invoked, and the first error if one occurred (a step
failure aborts immediately; later steps are not invoked). -/
def runSteps (g : Graph) (s0 : WState) : List String → WState → WState × List String × Option EngErr
  | [], acc => (acc, [], none)
  | n :: rest, acc =>
    match findNode g n with
    | none => (acc, [], some (.unknownNode n))
    | some nd =>
      match nd.step s0 with
      | .error msg => (acc, [n], some (.stepError msg))
      | .ok u =>
        let r := runSteps g s0 rest (applyUpdate g.schema acc u)
        (r.1, n :: r.2.1, r.2.2)

/-- Outcome of a run: either the final state or an error (no state at all). -/
inductive RunResult where
  | ok (s : WState)
  | err (e : EngErr)

/-- Modelled from the spec: the driving loop; runs superstep after superstep
until the frontier is exhausted (every path reached END).  `sched` reorders
each frontier and models the unspecified completion order of concurrent
branches.  Also returns the trace of executed node names. -/
def runLoop (g : Graph) (sched : List String → List String) :
    Nat → List String → WState → RunResult × List String
  | _, [], s => (.ok s, [])
  | 0, _, _ => (.err .outOfFuel, [])
  | fuel + 1, fr, s =>
    match runSteps g s fr s with
    | (_, ns, some e) => (.err e, ns)
    | (s', ns, none) =>
      match nextFrontier g fr s' with
      | .error e => (.err e, ns)
      | .ok next =>
        let r := runLoop g sched fuel (sched next) s'
        (r.1, ns ++ r.2)

/-- Modelled from the spec: materialize the initial state by filling the
caller-supplied partial record against the schema defaults for unset fields. -/
def materialize (schema : Schema) (init : WState) : WState :=
  schema.map (fun f => (f.name, (lookupA init f.name).getD f.dflt))

/-- Modelled from the spec: `invoke` with an explicit branch scheduler. -/
def invokeS (g : Graph) (sched : List String → List String) (fuel : Nat)
    (init : WState) : RunResult × List String :=
  let s0 := materialize g.schema init
  match nextFrontier g [STARTname] s0 with
  | .error e => (.err e, [])
  | .ok fr0 => runLoop g sched fuel (sched fr0) s0

/-- Modelled from the spec: run a compiled graph to completion from an
initial partial state. -/
def invoke (g : Graph) (fuel : Nat) (init : WState) : RunResult × List String :=
  invokeS g (fun l => l) fuel init

/-- JavaScript `Math.round`: round half towards positive infinity. -/
def jsRound (q : ℚ) : ℚ := ((⌊q + 1/2⌋ : ℤ) : ℚ)

/-- JavaScript `x.toFixed(2)` read back as a number (`parseFloat`). -/
def roundTo2 (q : ℚ) : ℚ := jsRound (q * 100) / 100

/-- Coerce a value to a number (a non-number reads as 0). -/
def toNum : JValue → ℚ
  | .num q => q
  | _ => 0

/-- The state of a successful run (empty on failure, which returns no state). -/
def finalState (r : RunResult × List String) : WState :=
  match r.1 with
  | .ok s => s
  | .err _ => []

/-- Whether a run succeeded. -/
def isOkR (r : RunResult × List String) : Bool :=
  match r.1 with
  | .ok _ => true
  | .err _ => false

namespace BMI

/-- The BMI category thresholds of `labelBMI` (source file: the BMI workflow). -/
def categorize (bmi : ℚ) : String :=
  if bmi < 18.5 then "Underweight"
  else if bmi < 25 then "Normal weight"
  else if bmi < 30 then "Overweight"
  else if bmi < 35 then "Obese (Class I)"
  else if bmi < 40 then "Obese (Class II)"
  else "Obese (Class III)"

/-- `calculateBMI` from the BMI workflow: bmi = weight / height², rounded to
two decimals via `Math.round(bmi * 100) / 100`. -/
def calculateBMI (s : WState) : Except String Update :=
  let weight_kg := getNum s "weight_kg"
  let height_m := getNum s "height_m"
  let bmi := weight_kg / (height_m * height_m)
  .ok [("bmi", .num (jsRound (bmi * 100) / 100))]

/-- `labelBMI` from the BMI workflow: reads `bmi` and writes `category`. -/
def labelBMI (s : WState) : Except String Update :=
  let bmi := getNum s "bmi"
  .ok [("category", .str (categorize bmi))]

/-- The `BMIStateAnnotation` schema of the BMI workflow (all fields use the
default overwrite merge since no reducer is declared). -/
def BMIStateSchema : Schema :=
  [⟨"weight_kg", .overwrite, .num 0⟩, ⟨"height_m", .overwrite, .num 0⟩,
   ⟨"bmi", .overwrite, .num 0⟩, ⟨"category", .overwrite, .str ""⟩]

/-- The compiled BMI workflow graph: START→calculate_bmi→label_bmi→END. -/
def workflow : Graph :=
  { schema := BMIStateSchema
    nodes := [⟨"calculate_bmi", calculateBMI⟩, ⟨"label_bmi", labelBMI⟩]
    edges := [(STARTname, "calculate_bmi"), ("calculate_bmi", "label_bmi"),
              ("label_bmi", ENDname)]
    branches := [] }

end BMI

namespace ChainAB

/-- Modelled from the spec: the linear-chain testable property's step A,
setting field x to 1. -/
def stepA : WState → Except String Update := fun _ => .ok [("x", .num 1)]

/-- Modelled from the spec: the linear-chain testable property's step B,
setting y = x + 1. -/
def stepB : WState → Except String Update :=
  fun s => .ok [("y", .num (getNum s "x" + 1))]

/-- Modelled from the spec: the linear chain START→A→B→END. -/
def workflow : Graph :=
  { schema := [⟨"x", .overwrite, .num 0⟩, ⟨"y", .overwrite, .num 0⟩]
    nodes := [⟨"A", stepA⟩, ⟨"B", stepB⟩]
    edges := [(STARTname, "A"), ("A", "B"), ("B", ENDname)]
    branches := [] }

end ChainAB

namespace Cricket

/-- `calculateStrikeRate` from the cricket workflow: guards against
`ballsPlayed === 0`, otherwise rounds `(runsScored / ballsPlayed) * 100`. -/
def calculateStrikeRate (s : WState) : Except String Update :=
  let runsScored := getNum s "runsScored"
  let ballsPlayed := getNum s "ballsPlayed"
  if ballsPlayed = 0 then .ok [("strikeRate", .num 0)]
  else .ok [("strikeRate", .num (jsRound (runsScored / ballsPlayed * 100)))]

/-- `calculateBoundaryPercentage` from the cricket workflow: guards against
`runsScored === 0`. -/
def calculateBoundaryPercentage (s : WState) : Except String Update :=
  let foursHit := getNum s "foursHit"
  let sixesHit := getNum s "sixesHit"
  let runsScored := getNum s "runsScored"
  if runsScored = 0 then .ok [("boundaryPercentage", .num 0)]
  else
    let boundaryRuns := foursHit * 4 + sixesHit * 6
    .ok [("boundaryPercentage", .num (jsRound (boundaryRuns / runsScored * 100)))]

/-- `calculateBallsPerBoundary` from the cricket workflow: guards against
`foursHit + sixesHit === 0`, in which case it returns `ballsPlayed`. -/
def calculateBallsPerBoundary (s : WState) : Except String Update :=
  let ballsPlayed := getNum s "ballsPlayed"
  let foursHit := getNum s "foursHit"
  let sixesHit := getNum s "sixesHit"
  let totalBoundaries := foursHit + sixesHit
  if totalBoundaries = 0 then .ok [("ballsPerBoundary", .num ballsPlayed)]
  else .ok [("ballsPerBoundary", .num (jsRound (ballsPlayed / totalBoundaries)))]

/-- The summary text built by `generateSummary`. -/
def summaryText (s : WState) : String :=
  "Batting Summary: - Runs Scored: " ++ toString (getNum s "runsScored") ++
  " - Balls Faced: " ++ toString (getNum s "ballsPlayed") ++
  " - Fours: " ++ toString (getNum s "foursHit") ++
  ", Sixes: " ++ toString (getNum s "sixesHit") ++
  " - Strike Rate: " ++ toString (getNum s "strikeRate") ++
  " - Boundary Percentage: " ++ toString (getNum s "boundaryPercentage") ++
  "% - Balls per Boundary: " ++ toString (getNum s "ballsPerBoundary")

/-- `generateSummary` from the cricket workflow: returns a `summary` field
that is NOT declared in the `CricketAnnotation` schema. -/
def generateSummary (s : WState) : Except String Update :=
  .ok [("summary", .str (summaryText s))]

/-- The `CricketAnnotation` schema of the cricket workflow: seven numeric
fields, no reducers (so every field merges by overwrite), and no `summary`
field. -/
def CricketSchema : Schema :=
  [⟨"runsScored", .overwrite, .num 0⟩, ⟨"ballsPlayed", .overwrite, .num 0⟩,
   ⟨"foursHit", .overwrite, .num 0⟩, ⟨"sixesHit", .overwrite, .num 0⟩,
   ⟨"strikeRate", .overwrite, .num 0⟩, ⟨"boundaryPercentage", .overwrite, .num 0⟩,
   ⟨"ballsPerBoundary", .overwrite, .num 0⟩]

/-- The compiled cricket workflow graph: START fans out to the three stat
nodes, which all feed `generate_summary`; `calculate_balls_per_boundary`
additionally has an edge to END. -/
def workflow : Graph :=
  { schema := CricketSchema
    nodes := [⟨"calculate_strike_rate", calculateStrikeRate⟩,
              ⟨"calculate_boundary_percentage", calculateBoundaryPercentage⟩,
              ⟨"calculate_balls_per_boundary", calculateBallsPerBoundary⟩,
              ⟨"generate_summary", generateSummary⟩]
    edges := [(STARTname, "calculate_strike_rate"),
              (STARTname, "calculate_boundary_percentage"),
              (STARTname, "calculate_balls_per_boundary"),
              ("calculate_strike_rate", "generate_summary"),
              ("calculate_boundary_percentage", "generate_summary"),
              ("calculate_balls_per_boundary", "generate_summary"),
              ("calculate_balls_per_boundary", ENDname)]
    branches := [] }

/-- The strike-rate value `calculateStrikeRate` writes. -/
def srVal (s : WState) : ℚ :=
  if getNum s "ballsPlayed" = 0 then 0
  else jsRound (getNum s "runsScored" / getNum s "ballsPlayed" * 100)

/-- The boundary-percentage value `calculateBoundaryPercentage` writes. -/
def bpVal (s : WState) : ℚ :=
  if getNum s "runsScored" = 0 then 0
  else jsRound ((getNum s "foursHit" * 4 + getNum s "sixesHit" * 6) /
    getNum s "runsScored" * 100)

/-- The balls-per-boundary value `calculateBallsPerBoundary` writes. -/
def bbVal (s : WState) : ℚ :=
  if getNum s "foursHit" + getNum s "sixesHit" = 0 then getNum s "ballsPlayed"
  else jsRound (getNum s "ballsPlayed" / (getNum s "foursHit" + getNum s "sixesHit"))

theorem calculateStrikeRate_eq (s : WState) :
    calculateStrikeRate s = .ok [("strikeRate", .num (srVal s))] := by
  simp only [calculateStrikeRate, srVal]
  split <;> rfl

theorem calculateBoundaryPercentage_eq (s : WState) :
    calculateBoundaryPercentage s = .ok [("boundaryPercentage", .num (bpVal s))] := by
  simp only [calculateBoundaryPercentage, bpVal]
  split <;> rfl

theorem calculateBallsPerBoundary_eq (s : WState) :
    calculateBallsPerBoundary s = .ok [("ballsPerBoundary", .num (bbVal s))] := by
  simp only [calculateBallsPerBoundary, bbVal]
  split <;> rfl

end Cricket

namespace Essay

/-- `evaluateClarity` from the essay workflow.  The LLM call, JSON parse and
zod validation are modelled as an oracle returning either the parsed
feedback/score pair or the thrown error. -/
def evaluateClarity (oracle : WState → Except String (String × ℚ)) (s : WState) :
    Except String Update :=
  match oracle s with
  | .error e => .error e
  | .ok (feedback, score) =>
    .ok [("clarity_feedback", .str feedback), ("individual_scores", .arr [.num score])]

/-- `depthAnalysis` from the essay workflow (LLM modelled as an oracle). -/
def depthAnalysis (oracle : WState → Except String (String × ℚ)) (s : WState) :
    Except String Update :=
  match oracle s with
  | .error e => .error e
  | .ok (feedback, score) =>
    .ok [("analysis_feedback", .str feedback), ("individual_scores", .arr [.num score])]

/-- `languageAnalysis` from the essay workflow (LLM modelled as an oracle). -/
def languageAnalysis (oracle : WState → Except String (String × ℚ)) (s : WState) :
    Except String Update :=
  match oracle s with
  | .error e => .error e
  | .ok (feedback, score) =>
    .ok [("language_feedback", .str feedback), ("individual_scores", .arr [.num score])]

/-- `aggregateAnalysis` from the essay workflow: averages the accumulated
`individual_scores` (0 when empty) and asks the LLM (oracle) for a combined
summary; `average.toFixed(2)` read back with `parseFloat` is `roundTo2`. -/
def aggregateAnalysis (oracle : WState → String) (s : WState) : Except String Update :=
  let scores := (asArr (lookupA s "individual_scores")).map toNum
  let average := if scores.length = 0 then 0
    else scores.foldl (fun a b => a + b) 0 / (scores.length : ℚ)
  .ok [("overall_feedback", .str (oracle s)), ("average_score", .num (roundTo2 average))]

/-- The `UpseState` schema of the essay workflow: `individual_scores` is the
single field with a declared (concatenating) reducer and default `[]`; every
other field has no reducer and so merges by overwrite. -/
def UpseState : Schema :=
  [⟨"essay", .overwrite, .str ""⟩,
   ⟨"language_feedback", .overwrite, .str ""⟩,
   ⟨"analysis_feedback", .overwrite, .str ""⟩,
   ⟨"clarity_feedback", .overwrite, .str ""⟩,
   ⟨"overall_feedback", .overwrite, .str ""⟩,
   ⟨"individual_scores", .accumulate, .arr []⟩,
   ⟨"average_score", .overwrite, .num 0⟩]

/-- The compiled essay workflow: START fans out to the three evaluation
nodes, which all feed `aggregate_analysis`, which reaches END. -/
def workflow (oc od ol : WState → Except String (String × ℚ)) (oa : WState → String) :
    Graph :=
  { schema := UpseState
    nodes := [⟨"evaluate_clarity", evaluateClarity oc⟩,
              ⟨"depth_analysis", depthAnalysis od⟩,
              ⟨"language_analysis", languageAnalysis ol⟩,
              ⟨"aggregate_analysis", aggregateAnalysis oa⟩]
    edges := [(STARTname, "evaluate_clarity"),
              (STARTname, "depth_analysis"),
              (STARTname, "language_analysis"),
              ("evaluate_clarity", "aggregate_analysis"),
              ("depth_analysis", "aggregate_analysis"),
              ("language_analysis", "aggregate_analysis"),
              ("aggregate_analysis", ENDname)]
    branches := [] }

end Essay

namespace Quad

/-- `x.toFixed(2)` of the quadratic workflow, modelled as decimal rounding
rendered back to a string. -/
def toFixed2 (q : ℚ) : String := toString (roundTo2 q)

/-- `formatQuadratic` from the quadratic workflow. -/
def formatQuadratic (a b c : ℚ) : String :=
  let bSign := if b ≥ 0 then "+ " ++ toString b else "- " ++ toString |b|
  let cSign := if c ≥ 0 then "+ " ++ toString c else "- " ++ toString |c|
  toString a ++ "x² " ++ bSign ++ "x " ++ cSign ++ " = 0"

/-- `showEquation` from the quadratic workflow. -/
def showEquation (s : WState) : Except String Update :=
  .ok [("equation", .str (formatQuadratic (getNum s "a") (getNum s "b") (getNum s "c")))]

/-- `calculateDiscriminent` (source spelling) from the quadratic workflow:
discriminant = b² - 4ac. -/
def calculateDiscriminent (s : WState) : Except String Update :=
  let a := getNum s "a"
  let b := getNum s "b"
  let c := getNum s "c"
  .ok [("discriminant", .num (b * b - 4 * a * c))]

/-- `findRealRoots` from the quadratic workflow; `Math.sqrt` is an external
math routine, modelled as the parameter `sqrtQ`. -/
def findRealRoots (sqrtQ : ℚ → ℚ) (s : WState) : Except String Update :=
  let a := getNum s "a"
  let b := getNum s "b"
  let discriminant := getNum s "discriminant"
  let root1 := (-b + sqrtQ discriminant) / (2 * a)
  let root2 := (-b - sqrtQ discriminant) / (2 * a)
  .ok [("result", .str ("Two distinct real roots: x₁ = " ++ toFixed2 root1 ++
    ", x₂ = " ++ toFixed2 root2))]

/-- `findRepeatedRoots` from the quadratic workflow. -/
def findRepeatedRoots (s : WState) : Except String Update :=
  let a := getNum s "a"
  let b := getNum s "b"
  let root := -b / (2 * a)
  .ok [("result", .str ("One repeated real root: x = " ++ toFixed2 root))]

/-- `findNoRealRoots` from the quadratic workflow. -/
def findNoRealRoots (sqrtQ : ℚ → ℚ) (s : WState) : Except String Update :=
  let a := getNum s "a"
  let b := getNum s "b"
  let discriminant := getNum s "discriminant"
  let realPart := toFixed2 (-b / (2 * a))
  let imagPart := toFixed2 (sqrtQ (-discriminant) / (2 * a))
  .ok [("result", .str ("No real roots. Complex roots: x₁ = " ++ realPart ++ " + " ++
    imagPart ++ "i, x₂ = " ++ realPart ++ " - " ++ imagPart ++ "i"))]

/-- The three-way case split of `checkDiscriminantCondition` on the
discriminant value. -/
def condToLabel (d : ℚ) : String :=
  if d = 0 then "repeated_roots"
  else if d < 0 then "no_real_roots"
  else "real_roots"

/-- `checkDiscriminantCondition` from the quadratic workflow: the router of
the conditional edge (no label map; labels are node names directly). -/
def checkDiscriminantCondition (s : WState) : String :=
  condToLabel (getNum s "discriminant")

/-- The `EquationAnnotation` schema of the quadratic workflow. -/
def EquationSchema : Schema :=
  [⟨"a", .overwrite, .num 0⟩, ⟨"b", .overwrite, .num 0⟩, ⟨"c", .overwrite, .num 0⟩,
   ⟨"equation", .overwrite, .str ""⟩, ⟨"discriminant", .overwrite, .num 0⟩,
   ⟨"result", .overwrite, .str ""⟩]

/-- The compiled quadratic workflow: a linear prefix followed by a
conditional edge set with no label map (router labels are node names). -/
def workflow (sqrtQ : ℚ → ℚ) : Graph :=
  { schema := EquationSchema
    nodes := [⟨"show_equation", showEquation⟩,
              ⟨"calculate_discriminant", calculateDiscriminent⟩,
              ⟨"real_roots", findRealRoots sqrtQ⟩,
              ⟨"repeated_roots", findRepeatedRoots⟩,
              ⟨"no_real_roots", findNoRealRoots sqrtQ⟩]
    edges := [(STARTname, "show_equation"),
              ("show_equation", "calculate_discriminant"),
              ("real_roots", ENDname),
              ("no_real_roots", ENDname),
              ("repeated_roots", ENDname)]
    branches := [⟨"calculate_discriminant", checkDiscriminantCondition, []⟩] }

end Quad

namespace XPost

/-- `generatePost` from the x-post workflow: the LLM reply is the oracle
`gen`; the step appends the reply to `tweet_history` itself (the field has
no reducer and merges by overwrite). -/
def generatePost (gen : WState → String) (s : WState) : Except String Update :=
  let response := gen s
  .ok [("tweet", .str response),
       ("tweet_history", .arr (asArr (lookupA s "tweet_history") ++ [.str response]))]

/-- `evaluatePost` from the x-post workflow: the LLM reply plus
`JSON.parse` are the oracle `ev`; an unparseable reply (`none`) makes the
step throw `Invalid JSON format returned by LLM` exactly as the source. -/
def evaluatePost (ev : WState → Option (String × String)) (s : WState) :
    Except String Update :=
  match ev s with
  | none => .error "Invalid JSON format returned by LLM"
  | some (evaluation, feedback) =>
    .ok [("evaluation", .str evaluation), ("feedback", .str feedback),
         ("feedback_history", .arr (asArr (lookupA s "feedback_history") ++ [.str feedback]))]

/-- `optimizePost` from the x-post workflow: increments `iteration` and
appends the improved tweet (oracle `opt`) to `tweet_history`. -/
def optimizePost (opt : WState → String) (s : WState) : Except String Update :=
  let response := opt s
  let updatedIteration := getNum s "iteration" + 1
  .ok [("iteration", .num updatedIteration),
       ("tweet_history", .arr (asArr (lookupA s "tweet_history") ++ [.str response])),
       ("tweet", .str response)]

/-- `checkEvalutionCondition` (source spelling) from the x-post workflow:
approved once `iteration > max_iteration` or the evaluation is approved. -/
def checkEvalutionCondition (s : WState) : String :=
  if getNum s "iteration" > getNum s "max_iteration" ∨ getStr s "evaluation" = "approved"
  then "approved" else "needs_improvement"

/-- The `PostAnnotation` schema of the x-post workflow: no field declares a
reducer, so every field (including the two history arrays) merges by
overwrite. -/
def PostSchema : Schema :=
  [⟨"topic", .overwrite, .str ""⟩, ⟨"tweet", .overwrite, .str ""⟩,
   ⟨"evaluation", .overwrite, .str ""⟩, ⟨"feedback", .overwrite, .str ""⟩,
   ⟨"iteration", .overwrite, .num 0⟩, ⟨"max_iteration", .overwrite, .num 0⟩,
   ⟨"tweet_history", .overwrite, .arr []⟩, ⟨"feedback_history", .overwrite, .arr []⟩]

/-- The compiled x-post workflow exactly as wired by the source: a
conditional edge set on `evaluate_post` (approved→END,
needs_improvement→optimize_post), a stray unconditional edge
`evaluate_post→optimize_post`, and NO edge leaving `optimize_post` (in
particular none back to `evaluate_post`). -/
def workflow (gen : WState → String) (ev : WState → Option (String × String))
    (opt : WState → String) : Graph :=
  { schema := PostSchema
    nodes := [⟨"generate_post", generatePost gen⟩,
              ⟨"evaluate_post", evaluatePost ev⟩,
              ⟨"optimize_post", optimizePost opt⟩]
    edges := [(STARTname, "generate_post"),
              ("generate_post", "evaluate_post"),
              ("evaluate_post", "optimize_post")]
    branches := [⟨"evaluate_post", checkEvalutionCondition,
                  [("approved", ENDname), ("needs_improvement", "optimize_post")]⟩] }

end XPost

namespace HistChain

/-- Modelled from the spec: one step of the three-step accumulate chain of
the testable property, appending a single value to the `history` field and
overwriting the `note` field. -/
def mkStep (v : String) : WState → Except String Update :=
  fun _ => .ok [("history", .arr [.str v]), ("note", .str v)]

/-- Modelled from the spec: `history` accumulates (declared reducer),
`note` has no reducer and defaults to overwrite. -/
def histSchema : Schema :=
  [⟨"history", .accumulate, .arr []⟩, ⟨"note", .overwrite, .str ""⟩]

/-- Modelled from the spec: the sequential chain START→s1→s2→s3→END, each
step appending one value to the accumulate field. -/
def workflow : Graph :=
  { schema := histSchema
    nodes := [⟨"s1", mkStep "a"⟩, ⟨"s2", mkStep "b"⟩, ⟨"s3", mkStep "c"⟩]
    edges := [(STARTname, "s1"), ("s1", "s2"), ("s2", "s3"), ("s3", ENDname)]
    branches := [] }

end HistChain

/-- C6: for a linear chain of unconditional single-successor edges the steps
execute in strict declaration sequence and each later step observes the
earlier step's merged output: in the BMI workflow `label_bmi` always reads
the `bmi` value `calculate_bmi` just wrote, and in the abstract chain
START→A→B→END with A setting x=1 and B setting y=x+1, `invoke {x:0}`
returns `{x:1, y:2}`. -/
theorem c6_linear_chain_sequences :
    (∀ w h : ℚ,
      invoke BMI.workflow 10 [("weight_kg", .num w), ("height_m", .num h)]
        = (.ok [("weight_kg", .num w), ("height_m", .num h),
                ("bmi", .num (jsRound (w / (h * h) * 100) / 100)),
                ("category", .str (BMI.categorize (jsRound (w / (h * h) * 100) / 100)))],
           ["calculate_bmi", "label_bmi"])) ∧
    invoke ChainAB.workflow 10 [("x", .num 0)]
      = (.ok [("x", .num 1), ("y", .num 2)], ["A", "B"]) := by
  constructor
  · intro w h
    simp +decide [invoke, invokeS, BMI.workflow, BMI.BMIStateSchema, BMI.calculateBMI,
      BMI.labelBMI, materialize, nextFrontier, collectSuccs, succsOf, findBranch,
      findNode, cleanupFrontier, runLoop, runSteps, applyUpdate, applyPair, findSpec,
      setA, lookupA, getNum, STARTname, ENDname, List.find?, List.filter, List.dedup]
  · simp +decide [invoke, invokeS, ChainAB.workflow, ChainAB.stepA, ChainAB.stepB,
      materialize, nextFrontier, collectSuccs, succsOf, findBranch,
      findNode, cleanupFrontier, runLoop, runSteps, applyUpdate, applyPair, findSpec,
      setA, lookupA, getNum, STARTname, ENDname, List.find?, List.filter, List.dedup]
    norm_num

/-- C10: each cricket stat step guards its division against a zero
denominator: `calculateStrikeRate` returns strikeRate 0 when ballsPlayed is
0, `calculateBoundaryPercentage` returns boundaryPercentage 0 when
runsScored is 0, and `calculateBallsPerBoundary` returns ballsPerBoundary
equal to ballsPlayed when foursHit + sixesHit is 0. -/
theorem c10_division_guards :
    ∀ s : WState,
      (getNum s "ballsPlayed" = 0 →
        Cricket.calculateStrikeRate s = .ok [("strikeRate", .num 0)]) ∧
      (getNum s "runsScored" = 0 →
        Cricket.calculateBoundaryPercentage s = .ok [("boundaryPercentage", .num 0)]) ∧
      (getNum s "foursHit" + getNum s "sixesHit" = 0 →
        Cricket.calculateBallsPerBoundary s
          = .ok [("ballsPerBoundary", .num (getNum s "ballsPlayed"))]) := by
  intro s
  refine ⟨fun h => ?_, fun h => ?_, fun h => ?_⟩ <;>
    simp [Cricket.calculateStrikeRate, Cricket.calculateBoundaryPercentage,
      Cricket.calculateBallsPerBoundary, h]

theorem c10_division_guards_witness :
    Cricket.calculateStrikeRate [] = .ok [("strikeRate", .num 0)] ∧
    Cricket.calculateBoundaryPercentage [] = .ok [("boundaryPercentage", .num 0)] ∧
    Cricket.calculateBallsPerBoundary []
      = .ok [("ballsPerBoundary", .num (getNum [] "ballsPlayed"))] :=
  ⟨(c10_division_guards []).1 rfl, (c10_division_guards []).2.1 rfl,
   (c10_division_guards []).2.2 (by norm_num [getNum, lookupA, List.find?])⟩

/-- C9: the quadratic router `checkDiscriminantCondition` is total: for every
state it returns one of the three labels real_roots, repeated_roots,
no_real_roots, each of which names a registered node of the graph, so the
conditional dispatch from `calculate_discriminant` never hits the
routing-failure branch. -/
theorem c9_discriminant_router_total :
    ∀ (sqrtQ : ℚ → ℚ) (s : WState),
      Quad.checkDiscriminantCondition s ∈
        (["real_roots", "repeated_roots", "no_real_roots"] : List String) ∧
      isNode (Quad.workflow sqrtQ) (Quad.checkDiscriminantCondition s) = true ∧
      succsOf (Quad.workflow sqrtQ) "calculate_discriminant" s
        = .ok [Quad.checkDiscriminantCondition s] := by
  intro sqrtQ s
  have h : Quad.checkDiscriminantCondition s = "repeated_roots" ∨
      Quad.checkDiscriminantCondition s = "no_real_roots" ∨
      Quad.checkDiscriminantCondition s = "real_roots" := by
    unfold Quad.checkDiscriminantCondition Quad.condToLabel
    split_ifs <;> simp
  rcases h with h | h | h <;>
    refine ⟨?_, ?_, ?_⟩ <;>
    simp +decide [h, Quad.workflow, isNode, succsOf, findBranch, resolveDest,
      lookupA, List.find?, ENDname, STARTname]

theorem lookupA_setA_self (s : WState) (k : String) (v : JValue) (h : k ∈ keysOf s) :
    lookupA (setA s k v) k = some v := by
  induction s with
  | nil => simp [keysOf] at h
  | cons p t ih =>
    by_cases hp : p.1 = k
    · simp [setA, lookupA, hp]
    · have h' : k ∈ keysOf t := by
        simp only [keysOf, List.map_cons, List.mem_cons] at h
        rcases h with h | h
        · exact absurd h.symm hp
        · simpa only [keysOf] using h
      simpa [setA, lookupA, hp] using ih h'

theorem lookupA_setA_ne (s : WState) (j k : String) (v : JValue) (h : k ≠ j) :
    lookupA (setA s j v) k = lookupA s k := by
  induction s with
  | nil => rfl
  | cons p t ih =>
    by_cases hp : p.1 = j
    · simpa [setA, lookupA, hp, Ne.symm h, h] using ih
    · by_cases hk : p.1 = k
      · simp [setA, lookupA, hp, hk, h]
      · simpa [setA, lookupA, hp, hk] using ih

theorem keysOf_setA (s : WState) (k : String) (v : JValue) :
    keysOf (setA s k v) = keysOf s := by
  induction s with
  | nil => rfl
  | cons p t ih =>
    by_cases hp : p.1 = k <;> simp [setA, keysOf, hp] <;> simpa [keysOf] using ih

theorem applyUpdate_single (schema : Schema) (s : WState) (kv : String × JValue) :
    applyUpdate schema s [kv] = applyPair schema s kv := rfl

/-- C3: a field whose merge strategy is accumulate (declared with a
concatenating reducer) has each step's returned sequence concatenated onto
the current sequence in arrival order; a chain of steps each appending one
value yields the concatenation of the appended values in execution order,
re-running the chain on the accumulated output doubles the sequence length
instead of resetting it, and a field without a declared reducer (such as the
x-post workflow's `tweet_history`) merges by overwrite. -/
theorem c3_accumulate_merge :
    (∀ (schema : Schema) (s : WState) (k : String) (fs : FieldSpec) (v : List JValue),
      k ∈ keysOf s → findSpec schema k = some fs → fs.strat = .accumulate →
      lookupA (applyUpdate schema s [(k, .arr v)]) k
        = some (.arr (asArr (lookupA s k) ++ v))) ∧
    (∀ (schema : Schema) (s : WState) (k : String) (fs : FieldSpec) (v : JValue),
      k ∈ keysOf s → findSpec schema k = some fs → fs.strat = .overwrite →
      lookupA (applyUpdate schema s [(k, v)]) k = some v) ∧
    findSpec XPost.PostSchema "tweet_history"
      = some ⟨"tweet_history", .overwrite, .arr []⟩ ∧
    invoke HistChain.workflow 10 []
      = (.ok [("history", .arr [.str "a", .str "b", .str "c"]), ("note", .str "c")],
         ["s1", "s2", "s3"]) ∧
    invoke HistChain.workflow 10
        [("history", .arr [.str "a", .str "b", .str "c"]), ("note", .str "c")]
      = (.ok [("history", .arr [.str "a", .str "b", .str "c", .str "a", .str "b", .str "c"]),
              ("note", .str "c")],
         ["s1", "s2", "s3"]) ∧
    (asArr (lookupA (finalState (invoke HistChain.workflow 10
        (finalState (invoke HistChain.workflow 10 [])))) "history")).length
      = 2 * (asArr (lookupA (finalState (invoke HistChain.workflow 10 [])) "history")).length := by
  refine ⟨?_, ?_, rfl, rfl, rfl, rfl⟩
  · intro schema s k fs v hk hf hs
    rw [applyUpdate_single]
    simp only [applyPair, hf, hs]
    rw [lookupA_setA_self s k _ hk]
    simp [asArr]
  · intro schema s k fs v hk hf hs
    rw [applyUpdate_single]
    simp only [applyPair, hf, hs]
    exact lookupA_setA_self s k v hk

theorem c3_accumulate_merge_witness :
    lookupA (applyUpdate HistChain.histSchema [("history", .arr [.str "x"])]
        [("history", .arr [.str "y"])]) "history"
      = some (.arr (asArr (lookupA [("history", .arr [.str "x"])] "history") ++ [.str "y"])) ∧
    lookupA (applyUpdate XPost.PostSchema [("tweet", .str "t0")] [("tweet", .str "t1")]) "tweet"
      = some (.str "t1") :=
  ⟨c3_accumulate_merge.1 HistChain.histSchema [("history", .arr [.str "x"])] "history"
      ⟨"history", .accumulate, .arr []⟩ [.str "y"] (by simp [keysOf]) rfl rfl,
   c3_accumulate_merge.2.1 XPost.PostSchema [("tweet", .str "t0")] "tweet"
      ⟨"tweet", .overwrite, .str ""⟩ (.str "t1") (by simp [keysOf]) rfl rfl⟩

/-- C5: if a step function signals an error instead of returning a partial
state, the entire run aborts immediately with that error propagated
unchanged (wrapped as a step-execution error) and no state is returned, with
no retries; concretely, the x-post `evaluate_post` step throwing on an
unparseable LLM reply aborts `invoke` right there. -/
theorem c5_step_error_aborts :
    (∀ (g : Graph) (sched : List String → List String) (fuel : Nat) (n : String)
        (rest : List String) (s : WState) (nd : Node) (e : String),
      findNode g n = some nd → nd.step s = .error e →
      runLoop g sched (fuel + 1) (n :: rest) s = (.err (.stepError e), [n])) ∧
    invoke (XPost.workflow (fun _ => "t1") (fun _ => none) (fun _ => "t2")) 20
        [("topic", .str "ai"), ("iteration", .num 1), ("max_iteration", .num 5)]
      = (.err (.stepError "Invalid JSON format returned by LLM"),
         ["generate_post", "evaluate_post"]) := by
  constructor
  · intro g sched fuel n rest s nd e hn hs
    simp [runLoop, runSteps, hn, hs]
  · rfl

theorem c5_step_error_aborts_witness :
    runLoop (XPost.workflow (fun _ => "t1") (fun _ => none) (fun _ => "t2"))
        (fun l => l) 1 ["evaluate_post"] []
      = (.err (.stepError "Invalid JSON format returned by LLM"), ["evaluate_post"]) :=
  c5_step_error_aborts.1 (XPost.workflow (fun _ => "t1") (fun _ => none) (fun _ => "t2"))
    (fun l => l) 0 "evaluate_post" [] []
    ⟨"evaluate_post", XPost.evaluatePost (fun _ => none)⟩
    "Invalid JSON format returned by LLM" rfl rfl

/-- A graph whose router emits a label that resolves to no registered node
(test input for the routing-failure behaviour). -/
def badRouteG : Graph :=
  { schema := []
    nodes := [⟨"n", fun _ => .ok []⟩]
    edges := [(STARTname, "n")]
    branches := [⟨"n", fun _ => "nowhere", []⟩] }

/-- C7: when a conditional edge's router returns a label that does not
resolve (through the label map or directly) to any registered node, the run
fails with a routing error and no node past the router's source node is
executed (the trace ends at the source node). -/
theorem c7_routing_error_halts :
    (∀ (g : Graph) (sched : List String → List String) (fuel : Nat) (n : String)
        (s : WState) (nd : Node) (u : Update) (br : Branch),
      findNode g n = some nd → nd.step s = .ok u → findBranch g n = some br →
      resolveDest g br (applyUpdate g.schema s u) = none →
      runLoop g sched (fuel + 1) [n] s = (.err .routingError, [n])) ∧
    invoke badRouteG 10 [] = (.err .routingError, ["n"]) := by
  constructor
  · intro g sched fuel n s nd u br hn hs hb hr
    simp [runLoop, runSteps, hn, hs, nextFrontier, collectSuccs, succsOf, hb, hr]
  · rfl

theorem c7_routing_error_halts_witness :
    runLoop badRouteG (fun l => l) 1 ["n"] [] = (.err .routingError, ["n"]) :=
  c7_routing_error_halts.1 badRouteG (fun l => l) 0 "n" [] ⟨"n", fun _ => .ok []⟩ []
    ⟨"n", fun _ => "nowhere", []⟩ rfl rfl rfl rfl

/-- C2: the x-post workflow as wired in the source is NOT the claimed cycle
generate_post→evaluate_post→{optimize_post→evaluate_post | END}: there is no
edge from `optimize_post` back to `evaluate_post`, so with an evaluator that
keeps answering needs_improvement (iteration 1, max_iteration 5) the run
executes generate_post, evaluate_post and optimize_post once each and then
stops — the evaluation is never re-run, the final state still says
needs_improvement with iteration 2, and `optimize_post` has no outgoing
transition at all. -/
theorem c2_xpost_graph_not_cyclic :
    invoke (XPost.workflow (fun _ => "t1") (fun _ => some ("needs_improvement", "weak"))
        (fun _ => "t2")) 20
        [("topic", .str "ai"), ("iteration", .num 1), ("max_iteration", .num 5)]
      = (.ok [("topic", .str "ai"), ("tweet", .str "t2"),
              ("evaluation", .str "needs_improvement"), ("feedback", .str "weak"),
              ("iteration", .num 2), ("max_iteration", .num 5),
              ("tweet_history", .arr [.str "t1", .str "t2"]),
              ("feedback_history", .arr [.str "weak"])],
         ["generate_post", "evaluate_post", "optimize_post"]) ∧
    (∀ s : WState,
      succsOf (XPost.workflow (fun _ => "t1") (fun _ => some ("needs_improvement", "weak"))
        (fun _ => "t2")) "optimize_post" s = .ok []) := by
  constructor
  · simp +decide [invoke, invokeS, XPost.workflow, XPost.PostSchema, XPost.generatePost,
      XPost.evaluatePost, XPost.optimizePost, XPost.checkEvalutionCondition,
      materialize, nextFrontier, collectSuccs, succsOf, findBranch, findNode,
      resolveDest, isNode, cleanupFrontier, runLoop, runSteps, applyUpdate,
      applyPair, findSpec, setA, lookupA, getNum, getStr, asArr,
      STARTname, ENDname, List.find?, List.filter, List.dedup]
    norm_num
  · intro s
    rfl

/-- C4: after a node with a conditional edge set completes, the router is
invoked on the state and the next node is exactly labelMap[label] when an
explicit label map was supplied (x-post: approved→END,
needs_improvement→optimize_post), or the node named by the returned label
when no map was supplied (quadratic workflow); the full quadratic run indeed
executes the router-chosen node right after calculate_discriminant. -/
theorem c4_conditional_dispatch :
    (∀ (gen : WState → String) (ev : WState → Option (String × String))
        (opt : WState → String) (s : WState),
      succsOf (XPost.workflow gen ev opt) "evaluate_post" s
        = .ok [if XPost.checkEvalutionCondition s = "approved" then ENDname
               else "optimize_post"]) ∧
    (∀ (sqrtQ : ℚ → ℚ) (s : WState),
      succsOf (Quad.workflow sqrtQ) "calculate_discriminant" s
        = .ok [Quad.checkDiscriminantCondition s]) ∧
    (∀ (sqrtQ : ℚ → ℚ) (a b c : ℚ),
      (invoke (Quad.workflow sqrtQ) 10
          [("a", .num a), ("b", .num b), ("c", .num c)]).2
        = ["show_equation", "calculate_discriminant",
           Quad.condToLabel (b * b - 4 * a * c)]) := by
  refine ⟨?_, ?_, ?_⟩
  · intro gen ev opt s
    by_cases hc : getNum s "iteration" > getNum s "max_iteration" ∨
      getStr s "evaluation" = "approved" <;>
      simp +decide [XPost.workflow, XPost.checkEvalutionCondition, hc, succsOf,
        findBranch, resolveDest, isNode, lookupA, List.find?, ENDname]
  · intro sqrtQ s
    have h : Quad.checkDiscriminantCondition s = "repeated_roots" ∨
        Quad.checkDiscriminantCondition s = "no_real_roots" ∨
        Quad.checkDiscriminantCondition s = "real_roots" := by
      unfold Quad.checkDiscriminantCondition Quad.condToLabel
      split_ifs <;> simp
    rcases h with h | h | h <;>
      simp +decide [h, Quad.workflow, succsOf, findBranch, resolveDest, isNode,
        lookupA, List.find?, ENDname]
  · intro sqrtQ a b c
    have h : Quad.condToLabel (b * b - 4 * a * c) = "repeated_roots" ∨
        Quad.condToLabel (b * b - 4 * a * c) = "no_real_roots" ∨
        Quad.condToLabel (b * b - 4 * a * c) = "real_roots" := by
      unfold Quad.condToLabel
      split_ifs <;> simp
    rcases h with h | h | h <;>
      rw [h] <;>
      simp +decide [invoke, invokeS, Quad.workflow, Quad.EquationSchema,
        Quad.showEquation, Quad.calculateDiscriminent, Quad.findRealRoots,
        Quad.findRepeatedRoots, Quad.findNoRealRoots,
        Quad.checkDiscriminantCondition, h, materialize, nextFrontier,
        collectSuccs, succsOf, findBranch, findNode, resolveDest, isNode,
        cleanupFrontier, runLoop, runSteps, applyUpdate, applyPair, findSpec,
        setA, lookupA, getNum, STARTname, ENDname, List.find?, List.filter,
        List.dedup]

theorem keysOf_applyPair (schema : Schema) (s : WState) (kv : String × JValue) :
    keysOf (applyPair schema s kv) = keysOf s := by
  rcases h : findSpec schema kv.1 with _ | fs
  · simp [applyPair, h]
  · rcases hs : fs.strat <;> simp [applyPair, h, hs, keysOf_setA]

theorem keysOf_applyUpdate (schema : Schema) (u : Update) (s : WState) :
    keysOf (applyUpdate schema s u) = keysOf s := by
  induction u generalizing s with
  | nil => rfl
  | cons kv t ih =>
    rw [applyUpdate, List.foldl_cons]
    rw [show List.foldl (applyPair schema) (applyPair schema s kv) t
      = applyUpdate schema (applyPair schema s kv) t from rfl]
    rw [ih, keysOf_applyPair]

theorem keysOf_runSteps (g : Graph) (s0 : WState) (fr : List String) (acc : WState) :
    keysOf (runSteps g s0 fr acc).1 = keysOf acc := by
  induction fr generalizing acc with
  | nil => rfl
  | cons n rest ih =>
    rcases hnd : findNode g n with _ | nd
    · simp [runSteps, hnd]
    · rcases hst : nd.step s0 with msg | u
      · simp [runSteps, hnd, hst]
      · simp only [runSteps, hnd, hst]
        exact (ih (applyUpdate g.schema acc u)).trans (keysOf_applyUpdate g.schema u acc)

theorem keysOf_runLoop (g : Graph) (sched : List String → List String) :
    ∀ (fuel : Nat) (fr : List String) (s r : WState) (tr : List String),
      runLoop g sched fuel fr s = (.ok r, tr) → keysOf r = keysOf s := by
  intro fuel
  induction fuel with
  | zero =>
    intro fr s r tr h
    cases fr with
    | nil =>
      simp [runLoop] at h
      rw [← h.1]
    | cons a l => simp [runLoop] at h
  | succ fuel ih =>
    intro fr s r tr h
    cases fr with
    | nil =>
      simp [runLoop] at h
      rw [← h.1]
    | cons a l =>
      simp only [runLoop] at h
      rcases hrs : runSteps g s (a :: l) s with ⟨s', ns, e?⟩
      rw [hrs] at h
      rcases e? with _ | e
      · dsimp only at h
        rcases hnf : nextFrontier g (a :: l) s' with e | next
        · rw [hnf] at h
          simp at h
        · rw [hnf] at h
          dsimp only at h
          rcases hrl : runLoop g sched fuel (sched next) s' with ⟨res, tr'⟩
          rw [hrl] at h
          cases res with
          | ok r' =>
            simp at h
            have h1 : keysOf r' = keysOf s' := ih (sched next) s' r' tr' hrl
            have h2 : keysOf s' = keysOf s := by
              have hks := keysOf_runSteps g s (a :: l) s
              rw [hrs] at hks
              exact hks
            rw [← h.1]
            exact h1.trans h2
          | err e =>
            simp at h
      · dsimp only at h
        simp at h

theorem keysOf_materialize (schema : Schema) (init : WState) :
    keysOf (materialize schema init) = schema.map FieldSpec.name := by
  simp [materialize, keysOf, List.map_map, Function.comp]

/-- C8: the set of state field names is fixed by the schema at construction
time and never changes at run time: every successful run returns a state
whose field names are exactly the schema's field names, a step-output key
absent from the schema leaves the state unchanged, and concretely the
cricket run executes `generate_summary` yet its undeclared `summary` output
never enters the state. -/
theorem c8_schema_fields_fixed :
    (∀ (g : Graph) (sched : List String → List String) (fuel : Nat) (init : WState)
        (r : WState) (tr : List String),
      invokeS g sched fuel init = (.ok r, tr) → keysOf r = g.schema.map FieldSpec.name) ∧
    (∀ (schema : Schema) (s : WState) (kv : String × JValue),
      findSpec schema kv.1 = none → applyPair schema s kv = s) ∧
    invoke Cricket.workflow 10
        [("runsScored", .num 50), ("ballsPlayed", .num 20),
         ("foursHit", .num 5), ("sixesHit", .num 3)]
      = (.ok [("runsScored", .num 50), ("ballsPlayed", .num 20),
              ("foursHit", .num 5), ("sixesHit", .num 3),
              ("strikeRate", .num 250), ("boundaryPercentage", .num 76),
              ("ballsPerBoundary", .num 3)],
         ["calculate_strike_rate", "calculate_boundary_percentage",
          "calculate_balls_per_boundary", "generate_summary"]) ∧
    lookupA (finalState (invoke Cricket.workflow 10
        [("runsScored", .num 50), ("ballsPlayed", .num 20),
         ("foursHit", .num 5), ("sixesHit", .num 3)])) "summary" = none ∧
    Cricket.generateSummary [] = .ok [("summary", .str (Cricket.summaryText []))] := by
  refine ⟨?_, ?_, ?_, ?_, rfl⟩
  · intro g sched fuel init r tr h
    unfold invokeS at h
    dsimp only at h
    rcases hnf : nextFrontier g [STARTname] (materialize g.schema init) with e | fr0
    · rw [hnf] at h
      simp at h
    · rw [hnf] at h
      dsimp only at h
      have hk := keysOf_runLoop g sched fuel (sched fr0) (materialize g.schema init) r tr h
      rw [hk, keysOf_materialize]
  · intro schema s kv h
    simp [applyPair, h]
  · simp +decide [invoke, invokeS, Cricket.workflow, Cricket.CricketSchema,
      Cricket.calculateStrikeRate, Cricket.calculateBoundaryPercentage,
      Cricket.calculateBallsPerBoundary, Cricket.generateSummary,
      materialize, nextFrontier, collectSuccs, succsOf, findBranch, findNode,
      cleanupFrontier, runLoop, runSteps, applyUpdate, applyPair, findSpec,
      setA, lookupA, getNum, STARTname, ENDname, List.find?, List.filter,
      List.dedup, jsRound]
    norm_num
    simp +decide [applyUpdate, applyPair, findSpec, setA, lookupA, List.find?]
  · simp +decide [invoke, invokeS, Cricket.workflow, Cricket.CricketSchema,
      Cricket.calculateStrikeRate, Cricket.calculateBoundaryPercentage,
      Cricket.calculateBallsPerBoundary, Cricket.generateSummary, finalState,
      materialize, nextFrontier, collectSuccs, succsOf, findBranch, findNode,
      cleanupFrontier, runLoop, runSteps, applyUpdate, applyPair, findSpec,
      setA, lookupA, getNum, STARTname, ENDname, List.find?, List.filter,
      List.dedup, jsRound]
    norm_num
    simp +decide [applyUpdate, applyPair, findSpec, setA, lookupA, List.find?,
      finalState]

theorem c8_schema_fields_fixed_witness :
    keysOf [("runsScored", .num 50), ("ballsPlayed", .num 20),
            ("foursHit", .num 5), ("sixesHit", .num 3),
            ("strikeRate", .num 250), ("boundaryPercentage", .num 76),
            ("ballsPerBoundary", .num 3)]
      = Cricket.workflow.schema.map FieldSpec.name ∧
    applyPair Cricket.CricketSchema [] ("summary", .str "s") = [] :=
  ⟨c8_schema_fields_fixed.1 Cricket.workflow (fun l => l) 10
      [("runsScored", .num 50), ("ballsPlayed", .num 20),
       ("foursHit", .num 5), ("sixesHit", .num 3)]
      [("runsScored", .num 50), ("ballsPlayed", .num 20),
       ("foursHit", .num 5), ("sixesHit", .num 3),
       ("strikeRate", .num 250), ("boundaryPercentage", .num 76),
       ("ballsPerBoundary", .num 3)]
      ["calculate_strike_rate", "calculate_boundary_percentage",
       "calculate_balls_per_boundary", "generate_summary"]
      c8_schema_fields_fixed.2.2.1,
   c8_schema_fields_fixed.2.1 Cricket.CricketSchema [] ("summary", .str "s") rfl⟩

theorem perm2_enum {α : Type} {l : List α} {x y : α} (h : List.Perm l [x, y]) :
    l = [x, y] ∨ l = [y, x] := by
  have hlen : l.length = 2 := h.length_eq
  match l, hlen with
  | [a, b], _ =>
    have ha : a = x ∨ a = y := by
      have : a ∈ [x, y] := h.mem_iff.mp (by simp)
      simpa using this
    rcases ha with ha | ha
    · subst ha
      have hb : b = y := by
        have := (List.perm_cons a).mp h
        simpa using this.eq_singleton
      subst hb
      exact Or.inl rfl
    · subst ha
      have h2 : List.Perm (a :: [b]) (a :: [x]) := h.trans (List.Perm.swap a x [])
      have hb : b = x := by
        have := (List.perm_cons a).mp h2
        simpa using this.eq_singleton
      subst hb
      exact Or.inr rfl

theorem perm3_enum {α : Type} {l : List α} {x y z : α} (h : List.Perm l [x, y, z]) :
    l = [x, y, z] ∨ l = [x, z, y] ∨ l = [y, x, z] ∨ l = [y, z, x] ∨
      l = [z, x, y] ∨ l = [z, y, x] := by
  have hlen : l.length = 3 := h.length_eq
  match l, hlen with
  | [a, b, c], _ =>
    have ha : a = x ∨ a = y ∨ a = z := by
      have : a ∈ [x, y, z] := h.mem_iff.mp (by simp)
      simpa using this
    rcases ha with ha | ha | ha
    · subst ha
      have h2 : List.Perm [b, c] [y, z] := (List.perm_cons a).mp h
      rcases perm2_enum h2 with h3 | h3 <;> rw [h3] <;> simp
    · subst ha
      have hswap : List.Perm ([x, a, z] : List α) [a, x, z] := List.Perm.swap a x [z]
      have h2 : List.Perm [b, c] [x, z] := (List.perm_cons a).mp (h.trans hswap)
      rcases perm2_enum h2 with h3 | h3 <;> rw [h3] <;> simp
    · subst ha
      have hswap : List.Perm ([x, y, a] : List α) [a, x, y] := by
        have s1 : List.Perm ([x, y, a] : List α) [x, a, y] :=
          List.Perm.cons x (List.Perm.swap a y [])
        have s2 : List.Perm ([x, a, y] : List α) [a, x, y] := List.Perm.swap a x [y]
        exact s1.trans s2
      have h2 : List.Perm [b, c] [x, y] := (List.perm_cons a).mp (h.trans hswap)
      rcases perm2_enum h2 with h3 | h3 <;> rw [h3] <;> simp

/-- In the cricket fan-out workflow, for every branch completion order and
every initial state, the run succeeds, the trace is the three branch nodes
(in scheduler order) followed by the join node, and all three disjoint
output fields hold the values their steps computed. -/
theorem cricketFanoutRun (sched : List String → List String)
    (hsched : ∀ l, List.Perm (sched l) l) (init : WState) :
    (invokeS Cricket.workflow sched 10 init).2
      = sched ["calculate_strike_rate", "calculate_boundary_percentage",
               "calculate_balls_per_boundary"] ++ ["generate_summary"] ∧
    isOkR (invokeS Cricket.workflow sched 10 init) = true ∧
    lookupA (finalState (invokeS Cricket.workflow sched 10 init)) "strikeRate"
      = some (.num (Cricket.srVal (materialize Cricket.CricketSchema init))) ∧
    lookupA (finalState (invokeS Cricket.workflow sched 10 init)) "boundaryPercentage"
      = some (.num (Cricket.bpVal (materialize Cricket.CricketSchema init))) ∧
    lookupA (finalState (invokeS Cricket.workflow sched 10 init)) "ballsPerBoundary"
      = some (.num (Cricket.bbVal (materialize Cricket.CricketSchema init))) := by
  have hstart : invokeS Cricket.workflow sched 10 init
      = runLoop Cricket.workflow sched 10
          (sched ["calculate_strike_rate", "calculate_boundary_percentage",
                  "calculate_balls_per_boundary"])
          (materialize Cricket.CricketSchema init) := rfl
  have h6 := perm3_enum (hsched ["calculate_strike_rate",
    "calculate_boundary_percentage", "calculate_balls_per_boundary"])
  have hone : sched ["generate_summary"] = ["generate_summary"] :=
    List.perm_singleton.mp (hsched ["generate_summary"])
  have hnil : sched [] = [] := List.perm_nil.mp (hsched [])
  rw [hstart]
  rcases h6 with h | h | h | h | h | h <;> rw [h] <;>
    refine ⟨?_, ?_, ?_, ?_, ?_⟩ <;>
    simp +decide [Cricket.workflow, Cricket.CricketSchema,
      Cricket.calculateStrikeRate_eq, Cricket.calculateBoundaryPercentage_eq,
      Cricket.calculateBallsPerBoundary_eq, Cricket.generateSummary,
      materialize, nextFrontier, collectSuccs, succsOf, findBranch, findNode,
      cleanupFrontier, runLoop, runSteps, applyUpdate, applyPair, findSpec,
      setA, lookupA, getNum, STARTname, ENDname, List.find?, List.filter,
      List.dedup, hone, hnil, isOkR, finalState]

set_option maxHeartbeats 3200000 in
/-- In the essay fan-out workflow, for every branch completion order, the run
succeeds, the trace is the three evaluation nodes (in scheduler order)
followed by the aggregation node, every branch's feedback field is set, the
accumulated scores are a permutation of the three branch scores, and the
join computes the average of all three scores (so it ran only after all
branch outputs were merged). -/
theorem essayFanoutRun (sched : List String → List String)
    (hsched : ∀ l, List.Perm (sched l) l) (essayText : String)
    (oc od ol : WState → Except String (String × ℚ)) (oa : WState → String)
    (fc fd fl : String) (sc sd sl : ℚ)
    (hoc : oc (materialize Essay.UpseState [("essay", .str essayText)]) = .ok (fc, sc))
    (hod : od (materialize Essay.UpseState [("essay", .str essayText)]) = .ok (fd, sd))
    (hol : ol (materialize Essay.UpseState [("essay", .str essayText)]) = .ok (fl, sl)) :
    (invokeS (Essay.workflow oc od ol oa) sched 10 [("essay", .str essayText)]).2
      = sched ["evaluate_clarity", "depth_analysis", "language_analysis"]
        ++ ["aggregate_analysis"] ∧
    isOkR (invokeS (Essay.workflow oc od ol oa) sched 10 [("essay", .str essayText)]) = true ∧
    lookupA (finalState (invokeS (Essay.workflow oc od ol oa) sched 10
      [("essay", .str essayText)])) "clarity_feedback" = some (.str fc) ∧
    lookupA (finalState (invokeS (Essay.workflow oc od ol oa) sched 10
      [("essay", .str essayText)])) "analysis_feedback" = some (.str fd) ∧
    lookupA (finalState (invokeS (Essay.workflow oc od ol oa) sched 10
      [("essay", .str essayText)])) "language_feedback" = some (.str fl) ∧
    List.Perm
      (asArr (lookupA (finalState (invokeS (Essay.workflow oc od ol oa) sched 10
        [("essay", .str essayText)])) "individual_scores"))
      [.num sc, .num sd, .num sl] ∧
    lookupA (finalState (invokeS (Essay.workflow oc od ol oa) sched 10
      [("essay", .str essayText)])) "average_score"
      = some (.num (roundTo2 ((sc + sd + sl) / 3))) := by
  have hstart : invokeS (Essay.workflow oc od ol oa) sched 10 [("essay", .str essayText)]
      = runLoop (Essay.workflow oc od ol oa) sched 10
          (sched ["evaluate_clarity", "depth_analysis", "language_analysis"])
          (materialize Essay.UpseState [("essay", .str essayText)]) := rfl
  have h6 := perm3_enum (hsched ["evaluate_clarity", "depth_analysis", "language_analysis"])
  have hone : sched ["aggregate_analysis"] = ["aggregate_analysis"] :=
    List.perm_singleton.mp (hsched ["aggregate_analysis"])
  have hnil : sched [] = [] := List.perm_nil.mp (hsched [])
  simp +decide [materialize, Essay.UpseState, lookupA] at hoc hod hol
  rw [hstart]
  rcases h6 with h | h | h | h | h | h <;> rw [h] <;>
    refine ⟨?_, ?_, ?_, ?_, ?_, ?_, ?_⟩ <;>
    simp +decide [Essay.workflow, Essay.UpseState, Essay.evaluateClarity,
      Essay.depthAnalysis, Essay.languageAnalysis, Essay.aggregateAnalysis,
      hoc, hod, hol, toNum,
      materialize, nextFrontier, collectSuccs, succsOf, findBranch, findNode,
      cleanupFrontier, runLoop, runSteps, applyUpdate, applyPair, findSpec,
      setA, lookupA, getNum, STARTname, ENDname, List.find?, List.filter,
      List.dedup, List.foldl, hone, hnil, isOkR, finalState, asArr] <;>
    first
      | exact List.Perm.refl _
      | exact List.Perm.cons _ (List.Perm.swap _ _ [])
      | exact List.Perm.swap _ _ _
      | exact (List.Perm.cons _ (List.Perm.swap _ _ [])).trans (List.Perm.swap _ _ _)
      | exact (List.Perm.swap _ _ _).trans (List.Perm.cons _ (List.Perm.swap _ _ []))
      | exact (List.Perm.swap _ _ _).trans
          ((List.Perm.cons _ (List.Perm.swap _ _ [])).trans (List.Perm.swap _ _ _))
      | exact congrArg (fun q => some (JValue.num (roundTo2 q))) (by push_cast ; ring)
      | exact congrArg roundTo2 (by push_cast ; ring)
      | norm_num

/-- C1: for the fan-out graphs in which START has multiple unconditional
edges to branch nodes that all feed a common join node (the cricket and
essay workflows), invoke returns a state in which every branch's disjoint
output field is set with the value its step computed, and the join node's
step executes only after every upstream branch has completed and merged its
output (the trace is the branches, in arbitrary completion order, followed
by the join; the essay join's average is computed from all three merged
branch scores), regardless of the order in which the branches run. -/
theorem c1_fanout_join_barrier
    (sched : List String → List String) (hsched : ∀ l, List.Perm (sched l) l)
    (init : WState) (essayText : String)
    (oc od ol : WState → Except String (String × ℚ)) (oa : WState → String)
    (fc fd fl : String) (sc sd sl : ℚ)
    (hoc : oc (materialize Essay.UpseState [("essay", .str essayText)]) = .ok (fc, sc))
    (hod : od (materialize Essay.UpseState [("essay", .str essayText)]) = .ok (fd, sd))
    (hol : ol (materialize Essay.UpseState [("essay", .str essayText)]) = .ok (fl, sl)) :
    ((invokeS Cricket.workflow sched 10 init).2
      = sched ["calculate_strike_rate", "calculate_boundary_percentage",
               "calculate_balls_per_boundary"] ++ ["generate_summary"] ∧
     isOkR (invokeS Cricket.workflow sched 10 init) = true ∧
     lookupA (finalState (invokeS Cricket.workflow sched 10 init)) "strikeRate"
       = some (.num (Cricket.srVal (materialize Cricket.CricketSchema init))) ∧
     lookupA (finalState (invokeS Cricket.workflow sched 10 init)) "boundaryPercentage"
       = some (.num (Cricket.bpVal (materialize Cricket.CricketSchema init))) ∧
     lookupA (finalState (invokeS Cricket.workflow sched 10 init)) "ballsPerBoundary"
       = some (.num (Cricket.bbVal (materialize Cricket.CricketSchema init)))) ∧
    ((invokeS (Essay.workflow oc od ol oa) sched 10 [("essay", .str essayText)]).2
      = sched ["evaluate_clarity", "depth_analysis", "language_analysis"]
        ++ ["aggregate_analysis"] ∧
     isOkR (invokeS (Essay.workflow oc od ol oa) sched 10 [("essay", .str essayText)]) = true ∧
     lookupA (finalState (invokeS (Essay.workflow oc od ol oa) sched 10
       [("essay", .str essayText)])) "clarity_feedback" = some (.str fc) ∧
     lookupA (finalState (invokeS (Essay.workflow oc od ol oa) sched 10
       [("essay", .str essayText)])) "analysis_feedback" = some (.str fd) ∧
     lookupA (finalState (invokeS (Essay.workflow oc od ol oa) sched 10
       [("essay", .str essayText)])) "language_feedback" = some (.str fl) ∧
     List.Perm
       (asArr (lookupA (finalState (invokeS (Essay.workflow oc od ol oa) sched 10
         [("essay", .str essayText)])) "individual_scores"))
       [.num sc, .num sd, .num sl] ∧
     lookupA (finalState (invokeS (Essay.workflow oc od ol oa) sched 10
       [("essay", .str essayText)])) "average_score"
       = some (.num (roundTo2 ((sc + sd + sl) / 3)))) :=
  ⟨cricketFanoutRun sched hsched init,
   essayFanoutRun sched hsched essayText oc od ol oa fc fd fl sc sd sl hoc hod hol⟩

theorem c1_fanout_join_barrier_witness :
    ((invokeS Cricket.workflow (fun l => l) 10 []).2
      = (fun l => l) ["calculate_strike_rate", "calculate_boundary_percentage",
               "calculate_balls_per_boundary"] ++ ["generate_summary"] ∧
     isOkR (invokeS Cricket.workflow (fun l => l) 10 []) = true ∧
     lookupA (finalState (invokeS Cricket.workflow (fun l => l) 10 [])) "strikeRate"
       = some (.num (Cricket.srVal (materialize Cricket.CricketSchema []))) ∧
     lookupA (finalState (invokeS Cricket.workflow (fun l => l) 10 [])) "boundaryPercentage"
       = some (.num (Cricket.bpVal (materialize Cricket.CricketSchema []))) ∧
     lookupA (finalState (invokeS Cricket.workflow (fun l => l) 10 [])) "ballsPerBoundary"
       = some (.num (Cricket.bbVal (materialize Cricket.CricketSchema [])))) ∧
    ((invokeS (Essay.workflow (fun _ => .ok ("clear", 8)) (fun _ => .ok ("deep", 7))
        (fun _ => .ok ("fluent", 9)) (fun _ => "overall")) (fun l => l) 10
        [("essay", .str "essay text")]).2
      = (fun l => l) ["evaluate_clarity", "depth_analysis", "language_analysis"]
        ++ ["aggregate_analysis"] ∧
     isOkR (invokeS (Essay.workflow (fun _ => .ok ("clear", 8)) (fun _ => .ok ("deep", 7))
        (fun _ => .ok ("fluent", 9)) (fun _ => "overall")) (fun l => l) 10
        [("essay", .str "essay text")]) = true ∧
     lookupA (finalState (invokeS (Essay.workflow (fun _ => .ok ("clear", 8))
        (fun _ => .ok ("deep", 7)) (fun _ => .ok ("fluent", 9)) (fun _ => "overall"))
        (fun l => l) 10 [("essay", .str "essay text")])) "clarity_feedback"
       = some (.str "clear") ∧
     lookupA (finalState (invokeS (Essay.workflow (fun _ => .ok ("clear", 8))
        (fun _ => .ok ("deep", 7)) (fun _ => .ok ("fluent", 9)) (fun _ => "overall"))
        (fun l => l) 10 [("essay", .str "essay text")])) "analysis_feedback"
       = some (.str "deep") ∧
     lookupA (finalState (invokeS (Essay.workflow (fun _ => .ok ("clear", 8))
        (fun _ => .ok ("deep", 7)) (fun _ => .ok ("fluent", 9)) (fun _ => "overall"))
        (fun l => l) 10 [("essay", .str "essay text")])) "language_feedback"
       = some (.str "fluent") ∧
     List.Perm
       (asArr (lookupA (finalState (invokeS (Essay.workflow (fun _ => .ok ("clear", 8))
          (fun _ => .ok ("deep", 7)) (fun _ => .ok ("fluent", 9)) (fun _ => "overall"))
          (fun l => l) 10 [("essay", .str "essay text")])) "individual_scores"))
       [.num 8, .num 7, .num 9] ∧
     lookupA (finalState (invokeS (Essay.workflow (fun _ => .ok ("clear", 8))
        (fun _ => .ok ("deep", 7)) (fun _ => .ok ("fluent", 9)) (fun _ => "overall"))
        (fun l => l) 10 [("essay", .str "essay text")])) "average_score"
       = some (.num (roundTo2 ((8 + 7 + 9) / 3)))) :=
  c1_fanout_join_barrier (fun l => l) (fun l => List.Perm.refl l) [] "essay text"
    (fun _ => .ok ("clear", 8)) (fun _ => .ok ("deep", 7)) (fun _ => .ok ("fluent", 9))
    (fun _ => "overall") "clear" "deep" "fluent" 8 7 9 rfl rfl rfl
